import Mathlib

/-!
Shallow embedding of the framebuffer pixel-addressing and display-update
core of the pamir-ai-eink example scripts (`examples/eink_common.py`,
`examples/gif.py`, `examples/eink_recovery.py`).

The framebuffer is modelled as a list of byte values (`List Nat`, each
entry the value of one mmap byte).  Python integers are modelled as `Int`
where the source can see negative values (pixel coordinates, partial-area
rectangles); for a positive literal divisor the Lean `Int` division `/`
(Euclidean) agrees with the Python floor division `//`, and the Lean
`Int` `%` agrees with the Python `%`.  IOCTL commands issued to the device are recorded in
a trace (`cmds`, most recent first); the display's commanded update mode
is mirrored in `mode` (the value last passed to
`EPD_IOC_SET_UPDATE_MODE`; 0 = full, 1 = partial, 2 = base map).
-/

namespace EInk

/-- Hardware commands issued through `fcntl.ioctl`, as recorded in the
device-command trace of the model. -/
inductive Cmd where
  | setMode (m : Nat)
  | setPartialArea (x y w h : Int)
  | update
  | reset
  | deepSleep
deriving DecidableEq, Repr

/-- Model of an `EInkDisplay` instance: dimensions, the memory-mapped
framebuffer contents, the commanded update mode, and the trace of issued
device commands (most recent first). -/
structure Display where
  width : Nat
  height : Nat
  mode : Nat
  fb : List Nat
  cmds : List Cmd
deriving DecidableEq, Repr

/-- Stride in bytes: `self.bytes_per_line = (self.width + 7) // 8`. -/
def Display.bpl (d : Display) : Nat := (d.width + 7) / 8

/-- Well-formedness: the framebuffer has exactly
`bytes_per_line * height` bytes, as mmapped in `_open_framebuffer`. -/
def Display.wf (d : Display) : Prop := d.fb.length = d.bpl * d.height

/-- Byte index `byte_idx = y * self.bytes_per_line + (x // 8)` for in-bounds (hence
nonnegative) coordinates. -/
def byteIdx (d : Display) (x y : Int) : Nat := y.toNat * d.bpl + x.toNat / 8

/-- Bit index `bit_idx = 7 - (x % 8)`. -/
def bitIdx (x : Int) : Nat := 7 - x.toNat % 8

/-- One read-modify-write of the byte at `byte_idx`:
`current &= ~(1 << bit_idx)` for a black pixel (modelled by
`Nat.ldiff`, which is exactly bitwise and-not on nonnegative integers),
`current |= 1 << bit_idx` for a white one.  Shared by `draw_pixel` and
the inner loop of `draw_image`. -/
def writeBit (fb : List Nat) (byte_idx bit_idx : Nat) (black : Bool) : List Nat :=
  let current := fb.getD byte_idx 0
  let current' :=
    if black then Nat.ldiff current (1 <<< bit_idx)
    else current ||| (1 <<< bit_idx)
  fb.set byte_idx current'

/-- Method `EInkDisplay.draw_pixel(x, y, color)` from `eink_common.py`:
returns unchanged for out-of-bounds coordinates, else clears (color 0)
or sets (any other color) bit `7 - (x % 8)` of byte
`y * bytes_per_line + x // 8`. -/
def draw_pixel (d : Display) (x y : Int) (color : Nat) : Display :=
  if 0 ≤ x ∧ x < (d.width : Int) ∧ 0 ≤ y ∧ y < (d.height : Int) then
    { d with fb := writeBit d.fb (byteIdx d x y) (bitIdx x) (color == 0) }
  else d

/-- Method `EInkDisplay.get_pixel(x, y)` from `eink_common.py`: `None` out of
bounds, else 1 when bit `7 - (x % 8)` of byte
`y * bytes_per_line + x // 8` is set, 0 otherwise. -/
def get_pixel (d : Display) (x y : Int) : Option Nat :=
  if 0 ≤ x ∧ x < (d.width : Int) ∧ 0 ≤ y ∧ y < (d.height : Int) then
    some (if d.fb.getD (byteIdx d x y) 0 &&& (1 <<< bitIdx x) ≠ 0 then 1 else 0)
  else none

/-- Method `EInkDisplay.clear(color)`: one bulk fill of the whole mmap with
`0xFF` when `color` is truthy (non-zero) and `0x00` when it is 0. -/
def clear (d : Display) (color : Nat) : Display :=
  { d with fb := List.replicate d.fb.length (if color ≠ 0 then 255 else 0) }

/-- Method `EInkDisplay.set_update_mode(mode)`: issues
`EPD_IOC_SET_UPDATE_MODE`; the model mirrors the commanded mode. -/
def set_update_mode (d : Display) (m : Nat) : Display :=
  { d with mode := m, cmds := Cmd.setMode m :: d.cmds }

/-- Method `EInkDisplay.update_display()`: issues `EPD_IOC_UPDATE_DISPLAY`. -/
def update_display (d : Display) : Display :=
  { d with cmds := Cmd.update :: d.cmds }

/-- A monochrome pixel source as consumed by `draw_image`:
`pixels[px, py]` is `pix px py`, 0 meaning black and anything else
white. -/
structure Frame where
  pix : Nat → Nat → Nat
  w : Nat
  h : Nat

/-- An all-white image of the given size, as built by
`Image.new("1", (w, h), 1)`. -/
def whiteFrame (w h : Nat) : Frame := ⟨fun _ _ => 1, w, h⟩

/-- The inner statement block of the double loop of `draw_image` at column
`px`, row `py` (with destination offset `(x, y)`): a read-modify-write
of the bit for framebuffer pixel `(x + px, y + py)`. -/
def blitPx (d : Display) (f : Frame) (x y px py : Nat) : Display :=
  { d with fb := writeBit d.fb ((y + py) * d.bpl + (x + px) / 8)
                   (7 - (x + px) % 8) (f.pix px py == 0) }

/-- Loop `for px in range(cols)` of `draw_image`, unrolled from the last
iteration: `blitCols f x y py d n` performs columns `0, 1, …, n-1` in
ascending order. -/
def blitCols (f : Frame) (x y py : Nat) (d : Display) : Nat → Display
  | 0 => d
  | Nat.succ px => blitPx (blitCols f x y py d px) f x y px py

/-- Loop `for py in range(rows)` of `draw_image`: rows `0, …, n-1` in
ascending order, each running `cols` column iterations. -/
def blitRows (f : Frame) (x y cols : Nat) (d : Display) : Nat → Display
  | 0 => d
  | Nat.succ py => blitCols f x y py (blitRows f x y cols d py) cols

/-- Method `EInkDisplay.draw_image(image, x, y)` (identical in
`eink_common.py` and `gif.py`): iterates
`py in range(min(src_h, self.height - y))`,
`px in range(min(src_w, self.width - x))` doing per-pixel
read-modify-write into the framebuffer.  In Python `self.height - y` can
be negative, giving an empty `range`; truncated `Nat` subtraction models
that for the nonnegative offsets used by all callers. -/
def draw_image (d : Display) (f : Frame) (x y : Nat) : Display :=
  blitRows f x y (min f.w (d.width - x)) d (min f.h (d.height - y))

/-- A concrete 128x250 display whose framebuffer is all white
(every byte `0xFF`), used as a witness input. -/
def whiteDisplay : Display :=
  { width := 128, height := 250, mode := 0,
    fb := List.replicate 4000 255, cmds := [] }

/-- A concrete display with the alternate default geometry 250x122
(width not a multiple of 8). -/
def display250 : Display :=
  { width := 250, height := 122, mode := 0,
    fb := List.replicate 3904 255, cmds := [] }

/-- Function `validate_byte_alignment(x, width)` from `eink_common.py`: aligns
`x` down (`(x // 8) * 8`) and `width` up (`((width + 7) // 8) * 8`) to
multiples of 8, printing a warning for each value it changed; it never
raises.  The two booleans record whether each warning was printed. -/
def validate_byte_alignment (x width : Int) : (Int × Int) × Bool × Bool :=
  ((if x % 8 ≠ 0 then x / 8 * 8 else x,
    if width % 8 ≠ 0 then (width + 7) / 8 * 8 else width),
   decide (x % 8 ≠ 0), decide (width % 8 ≠ 0))

/-- The clamping block of `EInkDisplay.set_partial_area` in
`eink_common.py` (run after the alignment check): successive
`max`/`min` clamps of x, y, width and height, where `width` is clamped
against the already-clamped `x` and `height` against the
already-clamped `y`. -/
def clamp_partial_area (cw ch : Nat) (x y w h : Int) :
    Int × Int × Int × Int :=
  let x' := max 0 (min x ((cw : Int) - 8))
  let y' := max 0 (min y ((ch : Int) - 1))
  let w' := max 8 (min w ((cw : Int) - x'))
  let h' := max 1 (min h ((ch : Int) - y'))
  (x', y', w', h')

/-- Method `EInkDisplay.set_partial_area(x, y, width, height)` from
`eink_common.py`: raises `ValueError` (modelled as `none`) unless `x`
and `width` are multiples of 8, then clamps the rectangle and issues
`EPD_IOC_SET_PARTIAL_AREA` with the clamped values. -/
def set_partial_area (d : Display) (x y w h : Int) : Option Display :=
  if x % 8 ≠ 0 ∨ w % 8 ≠ 0 then none
  else
    let r := clamp_partial_area d.width d.height x y w h
    some { d with
      cmds := Cmd.setPartialArea r.1 r.2.1 r.2.2.1 r.2.2.2 :: d.cmds }

/-- Method `EInkDisplay.set_partial_area` from `gif.py`: silently aligns `x`
down and `width` up to multiples of 8, then clips `width` against the
right edge and `height` against the bottom edge, and issues
`EPD_IOC_SET_PARTIAL_AREA`. -/
def gif_set_partial_area (d : Display) (x y w h : Int) : Display :=
  let x' := x / 8 * 8
  let w' := (w + 7) / 8 * 8
  let w'' := if (d.width : Int) < x' + w' then (d.width : Int) - x' else w'
  let h' := if (d.height : Int) < y + h then (d.height : Int) - y else h
  { d with cmds := Cmd.setPartialArea x' y w'' h' :: d.cmds }

/-- One iteration of the frame loop in `display_gif` (`gif.py`): skip
the frame if it is larger than the display ("needs additional
resizing"), else in partial mode with more than one frame first blit an
all-white ghost-clearing rectangle, then blit the frame and trigger an
update.  (The `time.sleep` is irrelevant to state.) -/
def gifFrameStep (st : Display) (f : Frame) (x_pos y_pos fw fh : Nat)
    (partialMode : Bool) (nframes : Nat) : Display :=
  if st.width < f.w ∨ st.height < f.h then st
  else update_display (draw_image
    (if partialMode ∧ 1 < nframes
      then draw_image st (whiteFrame fw fh) x_pos y_pos else st)
    f x_pos y_pos)

/-- Run `n` iterations of the frame loop of `display_gif`, frames taken in order
and cyclically across loop passes (iteration `k` shows frame
`k % len(frames)`). -/
def runAnimation (frames : List Frame) (x_pos y_pos fw fh : Nat)
    (partialMode : Bool) (st : Display) : Nat → Display
  | 0 => st
  | Nat.succ n =>
    gifFrameStep (runAnimation frames x_pos y_pos fw fh partialMode st n)
      (frames.getD (n % frames.length) (whiteFrame 0 0))
      x_pos y_pos fw fh partialMode frames.length

/-- The state of `display_gif` (`gif.py`) just after its animation loop
ends and before the terminal cleanup block: initial full-mode white
clear and update, then (if any frames) centred, byte-aligned
positioning, mode selection (partial with a partial-area command when
`use_partial` and more than one frame, else full), and the frame loop.
`cancelAt = some k` models a `KeyboardInterrupt` raised at the boundary
of frame iteration `k` (caught by the `except` and falling through to
cleanup); `none` models running to loop-count exhaustion.  A `loops=0`
(infinite) run without cancellation never reaches this state and is
outside the model. -/
def gifLoopState (d : Display) (frames : List Frame) (loops : Nat)
    (partialMode : Bool) (cancelAt : Option Nat) : Display :=
  let st0 := update_display (clear (set_update_mode d 0) 255)
  if frames.length ≠ 0 then
    let f0 := frames.getD 0 (whiteFrame 0 0)
    let x_pos : Nat := (max 0 (((d.width : Int) - f0.w) / 2 / 8 * 8)).toNat
    let y_pos : Nat := (max 0 (((d.height : Int) - f0.h) / 2)).toNat
    let fw : Nat := min f0.w (d.width - x_pos)
    let fh : Nat := min f0.h (d.height - y_pos)
    let st1 :=
      if partialMode ∧ 1 < frames.length
        then gif_set_partial_area (set_update_mode st0 1)
          x_pos y_pos fw fh
        else set_update_mode st0 0
    let steps :=
      match cancelAt with
      | some k => if loops = 0 then k else min k (loops * frames.length)
      | none => loops * frames.length
    runAnimation frames x_pos y_pos fw fh partialMode st1 steps
  else st0

/-- Function `display_gif(display, gif_path, loops, use_partial)` from `gif.py`:
the animation run followed by the unconditional terminal cleanup block
("Always do a final full refresh"): in partial mode with more than one
frame a `Full` transition, a white clear, and an update; otherwise a
`Full` transition and an update. -/
def display_gif (d : Display) (frames : List Frame) (loops : Nat)
    (partialMode : Bool) (cancelAt : Option Nat) : Display :=
  if partialMode ∧ 1 < frames.length then
    update_display (clear
      (set_update_mode (gifLoopState d frames loops partialMode cancelAt) 0)
      255)
  else
    update_display
      (set_update_mode (gifLoopState d frames loops partialMode cancelAt) 0)

/-- Errors raised by device calls; every `fcntl.ioctl` failure is an
`OSError`, and in Python 3 `IOError` is an alias of `OSError`, so the
`except IOError` handlers in the sources catch all of them. -/
inductive Err where
  | ioError
deriving DecidableEq, Repr

/-- The `try` body of `EInkDisplay.reset_display` (`eink_common.py` and
identically `gif.py`): issue `EPD_IOC_RESET`, then
`set_update_mode(EPD_MODE_FULL)`.  `resetFails` / `setModeFails` say
whether the respective ioctl raises. -/
def ec_reset_attempt (d : Display) (resetFails setModeFails : Bool) :
    Except Err Display :=
  if resetFails then Except.error Err.ioError
  else
    let d1 := { d with cmds := Cmd.reset :: d.cmds }
    if setModeFails then Except.error Err.ioError
    else Except.ok (set_update_mode d1 0)

/-- Method `EInkDisplay.reset_display`: the whole body is wrapped in
`try: … except IOError as e: print(...)`, so the method returns
normally (with the display unchanged past any successful command) no
matter which ioctl failed — it never propagates the error. -/
def ec_reset_display (d : Display) (resetFails setModeFails : Bool) :
    Display :=
  match ec_reset_attempt d resetFails setModeFails with
  | Except.ok d' => d'
  | Except.error _ => d

/-- Step 1 of `reset_display` in `eink_recovery.py` as literally
structured: `try: display.reset_display() except IOError as e:` — one
sysfs `force_reset` write, re-raising the original error `e` if the
sysfs write also fails.  The first component of the result counts sysfs
fallback attempts. -/
def recovery_try_reset (attempt : Except Err Display) (d : Display)
    (sysfsFails : Bool) : Except Err (Display × Nat) :=
  match attempt with
  | Except.ok d' => Except.ok (d', 0)
  | Except.error e =>
    if sysfsFails then Except.error e else Except.ok (d, 1)

/-- Step 1 of the recovery sequence with the actual callee plugged in:
`display.reset_display()` is total (it swallows `IOError` internally),
so the `try` body always returns normally. -/
def recovery_step1 (d : Display) (resetFails setModeFails sysfsFails : Bool) :
    Except Err (Display × Nat) :=
  recovery_try_reset
    (Except.ok (ec_reset_display d resetFails setModeFails)) d sysfsFails

end EInk

namespace EInk

/-! Basic lemmas about the canvas operations. -/

theorem getD_set_ne (l : List Nat) (i v j : Nat) (h : j ≠ i) :
    (l.set i v).getD j 0 = l.getD j 0 := by
  rcases Nat.lt_or_ge j l.length with hj | hj
  · rw [List.getD_eq_getElem _ _ (by simpa using hj),
      List.getD_eq_getElem _ _ hj]
    exact List.getElem_set_ne h.symm _
  · rw [List.getD_eq_default _ _ (by simpa using hj),
      List.getD_eq_default _ _ hj]

theorem writeBit_length (fb : List Nat) (i b : Nat) (bl : Bool) :
    (writeBit fb i b bl).length = fb.length := by
  simp [writeBit]

theorem writeBit_getD_ne (fb : List Nat) (i b : Nat) (bl : Bool) (j : Nat)
    (h : j ≠ i) : (writeBit fb i b bl).getD j 0 = fb.getD j 0 :=
  getD_set_ne fb i _ j h

theorem blitPx_width (d : Display) (f : Frame) (x y px py : Nat) :
    (blitPx d f x y px py).width = d.width := rfl

theorem blitPx_fb_length (d : Display) (f : Frame) (x y px py : Nat) :
    (blitPx d f x y px py).fb.length = d.fb.length := by
  simp [blitPx, writeBit_length]

theorem blitCols_invariants (f : Frame) (x y py : Nat) (d : Display) (n : Nat) :
    (blitCols f x y py d n).width = d.width ∧
    (blitCols f x y py d n).height = d.height ∧
    (blitCols f x y py d n).mode = d.mode ∧
    (blitCols f x y py d n).cmds = d.cmds ∧
    (blitCols f x y py d n).fb.length = d.fb.length := by
  induction n with
  | zero => exact ⟨rfl, rfl, rfl, rfl, rfl⟩
  | succ n ih =>
    obtain ⟨h1, h2, h3, h4, h5⟩ := ih
    refine ⟨?_, ?_, ?_, ?_, ?_⟩ <;>
      simp [blitCols, blitPx, writeBit_length, h1, h2, h3, h4, h5]

theorem blitRows_invariants (f : Frame) (x y cols : Nat) (d : Display) (n : Nat) :
    (blitRows f x y cols d n).width = d.width ∧
    (blitRows f x y cols d n).height = d.height ∧
    (blitRows f x y cols d n).mode = d.mode ∧
    (blitRows f x y cols d n).cmds = d.cmds ∧
    (blitRows f x y cols d n).fb.length = d.fb.length := by
  induction n with
  | zero => exact ⟨rfl, rfl, rfl, rfl, rfl⟩
  | succ n ih =>
    obtain ⟨h1, h2, h3, h4, h5⟩ := ih
    obtain ⟨g1, g2, g3, g4, g5⟩ :=
      blitCols_invariants f x y n (blitRows f x y cols d n) cols
    exact ⟨g1.trans h1, g2.trans h2, g3.trans h3, g4.trans h4, g5.trans h5⟩

theorem draw_image_fb_length (d : Display) (f : Frame) (x y : Nat) :
    (draw_image d f x y).fb.length = d.fb.length :=
  (blitRows_invariants _ _ _ _ _ _).2.2.2.2

theorem getD_set_self (l : List Nat) (i v : Nat) (h : i < l.length) :
    (l.set i v).getD i 0 = v := by
  rw [List.getD_eq_getElem _ _ (by simpa using h)]
  exact List.getElem_set_self _

/-- Value `n & (1 << b)` is nonzero exactly when bit `b` of `n` is set. -/
theorem and_shift_ne_zero (n b : Nat) :
    (n &&& (1 <<< b) ≠ 0) ↔ n.testBit b := by
  rw [Nat.one_shiftLeft, Nat.and_two_pow]
  have h2 : (0 : Nat) < 2 ^ b := pow_pos (by norm_num) b
  rcases h : n.testBit b with _ | _ <;> simp [h, h2.ne']

/-- Bit `b` of the byte written by `writeBit` at its target index:
cleared when writing black, set when writing white. -/
theorem writeBit_testBit_self (fb : List Nat) (i b : Nat) (bl : Bool)
    (h : i < fb.length) :
    ((writeBit fb i b bl).getD i 0).testBit b = !bl := by
  unfold writeBit
  rw [getD_set_self _ _ _ (by simpa using h)]
  rcases bl with _ | _
  · simp [Nat.testBit_lor, Nat.one_shiftLeft, Nat.testBit_two_pow_self]
  · simp [Nat.testBit_ldiff, Nat.one_shiftLeft, Nat.testBit_two_pow_self]

/-- Bits other than `b` of the byte written by `writeBit` are
unchanged. -/
theorem writeBit_testBit_ne (fb : List Nat) (i b : Nat) (bl : Bool)
    (h : i < fb.length) (b' : Nat) (hb : b' ≠ b) :
    ((writeBit fb i b bl).getD i 0).testBit b' = (fb.getD i 0).testBit b' := by
  unfold writeBit
  rw [getD_set_self _ _ _ (by simpa using h)]
  rcases bl with _ | _
  · simp [Nat.testBit_lor, Nat.one_shiftLeft,
      Nat.testBit_two_pow_of_ne (fun h => hb h.symm)]
  · simp [Nat.testBit_ldiff, Nat.one_shiftLeft,
      Nat.testBit_two_pow_of_ne (fun h => hb h.symm)]

/-- The byte index addressed by an in-bounds pixel is inside the
framebuffer of a well-formed display. -/
theorem byteIdx_lt (d : Display) (h : d.wf) (x y : Int)
    (hx0 : 0 ≤ x) (hx : x < (d.width : Int))
    (hy0 : 0 ≤ y) (hy : y < (d.height : Int)) :
    byteIdx d x y < d.fb.length := by
  have hxw : x.toNat < d.width := by omega
  have hyh : y.toNat < d.height := by omega
  have hdiv : x.toNat / 8 < d.bpl := by
    unfold Display.bpl
    omega
  have h1 : byteIdx d x y < (y.toNat + 1) * d.bpl := by
    unfold byteIdx
    calc y.toNat * d.bpl + x.toNat / 8 < y.toNat * d.bpl + d.bpl := by omega
    _ = (y.toNat + 1) * d.bpl := by ring
  have h2 : (y.toNat + 1) * d.bpl ≤ d.height * d.bpl :=
    Nat.mul_le_mul_right _ (by omega)
  have h3 : d.height * d.bpl = d.fb.length := by rw [h]; ring
  exact Nat.lt_of_lt_of_le h1 (h3 ▸ h2)

theorem whiteDisplay_wf : whiteDisplay.wf := by
  show (List.replicate 4000 (255 : Nat)).length =
    whiteDisplay.bpl * whiteDisplay.height
  rw [List.length_replicate]
  rfl

theorem whiteDisplay_fb_length : whiteDisplay.fb.length = 4000 :=
  List.length_replicate _ _

/-! Frame-condition lemmas for `draw_image`. -/

/-- Distinct (row, byte-column) pairs address distinct framebuffer
indices when both columns are inside a row. -/
theorem rowcol_index_ne (bpl r c r' c' : Nat) (hc : c < bpl)
    (hc' : c' < bpl) (hne : r ≠ r' ∨ c ≠ c') :
    r * bpl + c ≠ r' * bpl + c' := by
  intro he
  have h1 : (r * bpl + c) % bpl = c := by
    rw [Nat.add_comm, Nat.add_mul_mod_self_right]
    exact Nat.mod_eq_of_lt hc
  have h2 : (r' * bpl + c') % bpl = c' := by
    rw [Nat.add_comm, Nat.add_mul_mod_self_right]
    exact Nat.mod_eq_of_lt hc'
  have hcc : c = c' := by rw [← h1, ← h2, he]
  have hb : 0 < bpl := by omega
  have hr : r = r' := by
    rw [hcc] at he
    have h3 : r * bpl = r' * bpl := by omega
    exact Nat.eq_of_mul_eq_mul_right hb h3
  rcases hne with h | h
  · exact h hr
  · exact h hcc

theorem blitCols_getD_ne (f : Frame) (x y py : Nat) (d : Display)
    (n j : Nat)
    (hj : ∀ px, px < n → j ≠ (y + py) * d.bpl + (x + px) / 8) :
    (blitCols f x y py d n).fb.getD j 0 = d.fb.getD j 0 := by
  induction n with
  | zero => rfl
  | succ n ih =>
    have hbpl : (blitCols f x y py d n).bpl = d.bpl := by
      unfold Display.bpl
      rw [(blitCols_invariants f x y py d n).1]
    show (writeBit (blitCols f x y py d n).fb
        ((y + py) * (blitCols f x y py d n).bpl + (x + n) / 8)
        (7 - (x + n) % 8) (f.pix n py == 0)).getD j 0 = d.fb.getD j 0
    rw [hbpl, writeBit_getD_ne _ _ _ _ _ (hj n (Nat.lt_succ_self n))]
    exact ih (fun px hpx => hj px (Nat.lt_succ_of_lt hpx))

theorem blitRows_getD_ne (f : Frame) (x y cols : Nat) (d : Display)
    (n j : Nat)
    (hj : ∀ py, py < n → ∀ px, px < cols →
      j ≠ (y + py) * d.bpl + (x + px) / 8) :
    (blitRows f x y cols d n).fb.getD j 0 = d.fb.getD j 0 := by
  induction n with
  | zero => rfl
  | succ n ih =>
    have hbpl : (blitRows f x y cols d n).bpl = d.bpl := by
      unfold Display.bpl
      rw [(blitRows_invariants f x y cols d n).1]
    show (blitCols f x y n (blitRows f x y cols d n) cols).fb.getD j 0
      = d.fb.getD j 0
    rw [blitCols_getD_ne f x y n (blitRows f x y cols d n) cols j
      (fun px hpx => by
        rw [hbpl]
        exact hj n (Nat.lt_succ_self n) px hpx)]
    exact ih (fun py hpy px hpx => hj py (Nat.lt_succ_of_lt hpy) px hpx)

/-! Preservation lemmas for the gif animation model. -/

theorem clear_fb_length (d : Display) (c : Nat) :
    (clear d c).fb.length = d.fb.length := by
  simp [clear]

theorem gifFrameStep_fb_length (st : Display) (f : Frame)
    (x_pos y_pos fw fh : Nat) (pm : Bool) (n : Nat) :
    (gifFrameStep st f x_pos y_pos fw fh pm n).fb.length = st.fb.length := by
  unfold gifFrameStep
  split_ifs with h1 h2 <;>
    simp [update_display, draw_image_fb_length]

theorem runAnimation_fb_length (frames : List Frame)
    (x_pos y_pos fw fh : Nat) (pm : Bool) (st : Display) (n : Nat) :
    (runAnimation frames x_pos y_pos fw fh pm st n).fb.length
      = st.fb.length := by
  induction n with
  | zero => rfl
  | succ n ih =>
    rw [runAnimation, gifFrameStep_fb_length]
    exact ih

theorem gifLoopState_fb_length (d : Display) (frames : List Frame)
    (loops : Nat) (pm : Bool) (cancelAt : Option Nat) :
    (gifLoopState d frames loops pm cancelAt).fb.length = d.fb.length := by
  unfold gifLoopState
  split_ifs with h1 h2 <;>
    simp [runAnimation_fb_length, gif_set_partial_area, set_update_mode,
      update_display, clear_fb_length, clear]

end EInk

namespace EInk

/-! Claim theorems. -/

/-- C1: for every in-bounds coordinate and every color in {0, 1},
`draw_pixel(x, y, color)` followed by `get_pixel(x, y)` on the same
display returns `color`. -/
theorem draw_get_pixel_roundtrip (d : Display) (hwf : d.wf) (x y : Int)
    (color : Nat)
    (hx0 : 0 ≤ x) (hx : x < (d.width : Int))
    (hy0 : 0 ≤ y) (hy : y < (d.height : Int))
    (hc : color = 0 ∨ color = 1) :
    get_pixel (draw_pixel d x y color) x y = some color := by
  have hin : 0 ≤ x ∧ x < (d.width : Int) ∧ 0 ≤ y ∧ y < (d.height : Int) :=
    ⟨hx0, hx, hy0, hy⟩
  have hlt : byteIdx d x y < d.fb.length := byteIdx_lt d hwf x y hx0 hx hy0 hy
  unfold draw_pixel
  rw [if_pos hin]
  show (if 0 ≤ x ∧ x < (d.width : Int) ∧ 0 ≤ y ∧ y < (d.height : Int) then
      some (if (writeBit d.fb (byteIdx d x y) (bitIdx x) (color == 0)).getD
          (byteIdx d x y) 0 &&& (1 <<< bitIdx x) ≠ 0 then 1 else 0)
    else none) = some color
  rw [if_pos hin]
  have hbit := writeBit_testBit_self d.fb (byteIdx d x y) (bitIdx x)
    (color == 0) hlt
  rcases hc with rfl | rfl
  · simp only [and_shift_ne_zero, hbit]
    simp
  · simp only [and_shift_ne_zero, hbit]
    simp

/-- Witness for C1 at a concrete input. -/
theorem draw_get_pixel_roundtrip_witness :
    get_pixel (draw_pixel whiteDisplay 13 7 0) 13 7 = some 0 :=
  draw_get_pixel_roundtrip whiteDisplay whiteDisplay_wf 13 7 0 (by decide)
    (by decide) (by decide) (by decide) (Or.inl rfl)

/-- C2: on a 128x250 canvas cleared to white, `draw_pixel(0, 0, 0)`
followed by `draw_pixel(7, 0, 1)` leaves byte 0 of row 0 equal to
`0b01111111` (0x7F): the pixel write addresses bit `7 - (x % 8)` of
byte `y * stride + x / 8`, MSB-first and row-major. -/
theorem draw_pixel_scenario_byte0 :
    (draw_pixel (draw_pixel whiteDisplay 0 0 0) 7 0 1).fb.getD 0 0 = 127 := by
  have h1 : Nat.ldiff 255 128 = 127 := by simp [Nat.ldiff, Nat.bitwise]
  show Nat.ldiff 255 128 ||| 1 = 127
  rw [h1]
  decide

/-- C10: for in-bounds coordinates `draw_pixel` modifies at most the
byte at `y * bytes_per_line + x / 8`, and within it at most bit
`7 - (x % 8)`; out-of-bounds calls leave the display unchanged. -/
theorem draw_pixel_frame (d : Display) (hwf : d.wf) (x y : Int)
    (color : Nat) :
    (¬ (0 ≤ x ∧ x < (d.width : Int) ∧ 0 ≤ y ∧ y < (d.height : Int)) →
      draw_pixel d x y color = d)
    ∧ ((0 ≤ x ∧ x < (d.width : Int) ∧ 0 ≤ y ∧ y < (d.height : Int)) →
        (∀ j, j ≠ byteIdx d x y →
          (draw_pixel d x y color).fb.getD j 0 = d.fb.getD j 0)
        ∧ (∀ b, b ≠ bitIdx x →
            ((draw_pixel d x y color).fb.getD (byteIdx d x y) 0).testBit b
              = (d.fb.getD (byteIdx d x y) 0).testBit b)) := by
  constructor
  · intro h
    unfold draw_pixel
    rw [if_neg h]
  · intro h
    constructor
    · intro j hj
      unfold draw_pixel
      rw [if_pos h]
      exact writeBit_getD_ne d.fb _ _ _ j hj
    · intro b hb
      unfold draw_pixel
      rw [if_pos h]
      have hlt : byteIdx d x y < d.fb.length :=
        byteIdx_lt d hwf x y h.1 h.2.1 h.2.2.1 h.2.2.2
      exact writeBit_testBit_ne d.fb _ _ _ hlt b hb

/-- Witness for C10 at a concrete input. -/
theorem draw_pixel_frame_witness :
    (¬ ((0 : Int) ≤ 3 ∧ (3 : Int) < (whiteDisplay.width : Int)
        ∧ (0 : Int) ≤ 5 ∧ (5 : Int) < (whiteDisplay.height : Int)) →
      draw_pixel whiteDisplay 3 5 0 = whiteDisplay)
    ∧ (((0 : Int) ≤ 3 ∧ (3 : Int) < (whiteDisplay.width : Int)
        ∧ (0 : Int) ≤ 5 ∧ (5 : Int) < (whiteDisplay.height : Int)) →
        (∀ j, j ≠ byteIdx whiteDisplay 3 5 →
          (draw_pixel whiteDisplay 3 5 0).fb.getD j 0
            = whiteDisplay.fb.getD j 0)
        ∧ (∀ b, b ≠ bitIdx 3 →
            ((draw_pixel whiteDisplay 3 5 0).fb.getD
              (byteIdx whiteDisplay 3 5) 0).testBit b
              = (whiteDisplay.fb.getD
                  (byteIdx whiteDisplay 3 5) 0).testBit b)) :=
  draw_pixel_frame whiteDisplay whiteDisplay_wf 3 5 0

/-- C5: `clear(color)` replaces the whole framebuffer by one bulk fill
with `0xFF` when `color` is non-zero and `0x00` when it is zero, and a
`clear(color)` followed by `clear(0)` yields the same buffer as a
single `clear(0)`. -/
theorem clear_bulk_fill (d : Display) (color : Nat) :
    (clear d color).fb.length = d.fb.length
    ∧ (∀ i, i < d.fb.length →
        (clear d color).fb.getD i 0 = if color ≠ 0 then 255 else 0)
    ∧ clear (clear d color) 0 = clear d 0 := by
  refine ⟨by simp [clear], ?_, by simp [clear]⟩
  intro i hi
  unfold clear
  rw [List.getD_eq_getElem _ _ (by simpa using hi)]
  simp

/-- Witness for C5 at a concrete input. -/
theorem clear_bulk_fill_witness :
    (clear whiteDisplay 7).fb.getD 2 0 = (if (7 : Nat) ≠ 0 then 255 else 0) :=
  (clear_bulk_fill whiteDisplay 7).2.1 2
    (by rw [whiteDisplay_fb_length]; omega)

/-- C3: `validate_byte_alignment` aligns `x` down to the nearest
multiple of 8 and `width` up to the nearest multiple of 8, warns
exactly when a value was changed, and always proceeds (it is total,
never failing); in particular `x=5, width=20` proceeds as
`x=0, width=24` with both warnings printed. -/
theorem validate_byte_alignment_spec (x w : Int) :
    ((validate_byte_alignment x w).1.1 % 8 = 0
      ∧ (validate_byte_alignment x w).1.1 ≤ x
      ∧ x < (validate_byte_alignment x w).1.1 + 8)
    ∧ ((validate_byte_alignment x w).1.2 % 8 = 0
      ∧ w ≤ (validate_byte_alignment x w).1.2
      ∧ (validate_byte_alignment x w).1.2 < w + 8)
    ∧ ((validate_byte_alignment x w).2.1 = true
        ↔ (validate_byte_alignment x w).1.1 ≠ x)
    ∧ ((validate_byte_alignment x w).2.2 = true
        ↔ (validate_byte_alignment x w).1.2 ≠ w)
    ∧ validate_byte_alignment 5 20 = ((0, 24), true, true) := by
  refine ⟨?_, ?_, ?_, ?_, by decide⟩ <;>
    unfold validate_byte_alignment <;>
    simp only [decide_eq_true_eq] <;>
    split_ifs with h <;>
    omega

/-- C4 counterexample: against a 250-pixel-wide canvas the byte-aligned
request `x=248, y=0, width=8, height=8` is issued as `x=242`, which is
not a multiple of 8 — the claim as stated fails for canvases whose
width is not a multiple of 8. -/
theorem set_partial_area_misaligned_example :
    set_partial_area display250 248 0 8 8
      = some { display250 with cmds := [Cmd.setPartialArea 242 0 8 8] }
    ∧ ¬ ((242 : Int) % 8 = 0) := by
  constructor
  · rfl
  · decide

/-- C4 (amended): for a canvas whose width is a multiple of 8 and at
least 8, and whose height is at least 1, every byte-aligned request is
accepted and the issued rectangle satisfies `x % 8 = 0`, `w % 8 = 0`,
`x ∈ [0, cw-8]`, `w ∈ [8, cw-x]`, `y ∈ [0, ch-1]`, `h ∈ [1, ch-y]` —
hence it is fully contained in the canvas. -/
theorem set_partial_area_geometry (d : Display) (x y w h : Int)
    (hx : x % 8 = 0) (hw : w % 8 = 0)
    (hcw8 : d.width % 8 = 0) (hcw : 8 ≤ d.width) (hch : 1 ≤ d.height) :
    (set_partial_area d x y w h
      = some { d with
          cmds := Cmd.setPartialArea
              (clamp_partial_area d.width d.height x y w h).1
              (clamp_partial_area d.width d.height x y w h).2.1
              (clamp_partial_area d.width d.height x y w h).2.2.1
              (clamp_partial_area d.width d.height x y w h).2.2.2
            :: d.cmds })
    ∧ (clamp_partial_area d.width d.height x y w h).1 % 8 = 0
    ∧ (clamp_partial_area d.width d.height x y w h).2.2.1 % 8 = 0
    ∧ 0 ≤ (clamp_partial_area d.width d.height x y w h).1
    ∧ (clamp_partial_area d.width d.height x y w h).1 ≤ (d.width : Int) - 8
    ∧ 8 ≤ (clamp_partial_area d.width d.height x y w h).2.2.1
    ∧ (clamp_partial_area d.width d.height x y w h).2.2.1
        ≤ (d.width : Int) - (clamp_partial_area d.width d.height x y w h).1
    ∧ 0 ≤ (clamp_partial_area d.width d.height x y w h).2.1
    ∧ (clamp_partial_area d.width d.height x y w h).2.1
        ≤ (d.height : Int) - 1
    ∧ 1 ≤ (clamp_partial_area d.width d.height x y w h).2.2.2
    ∧ (clamp_partial_area d.width d.height x y w h).2.2.2
        ≤ (d.height : Int)
          - (clamp_partial_area d.width d.height x y w h).2.1
    := by
  refine ⟨?_, ?_⟩
  · unfold set_partial_area
    rw [if_neg (by omega)]
  · dsimp only [clamp_partial_area]
    refine ⟨?_, ?_, ?_, ?_, ?_, ?_, ?_, ?_, ?_, ?_⟩ <;> omega

/-- Witness for the amended C4 at a concrete input. -/
theorem set_partial_area_geometry_witness :
    (set_partial_area whiteDisplay 16 20 32 40
      = some { whiteDisplay with
          cmds := Cmd.setPartialArea
              (clamp_partial_area whiteDisplay.width whiteDisplay.height
                16 20 32 40).1
              (clamp_partial_area whiteDisplay.width whiteDisplay.height
                16 20 32 40).2.1
              (clamp_partial_area whiteDisplay.width whiteDisplay.height
                16 20 32 40).2.2.1
              (clamp_partial_area whiteDisplay.width whiteDisplay.height
                16 20 32 40).2.2.2
            :: whiteDisplay.cmds })
    ∧ (clamp_partial_area whiteDisplay.width whiteDisplay.height
        16 20 32 40).1 % 8 = 0
    ∧ (clamp_partial_area whiteDisplay.width whiteDisplay.height
        16 20 32 40).2.2.1 % 8 = 0
    ∧ 0 ≤ (clamp_partial_area whiteDisplay.width whiteDisplay.height
        16 20 32 40).1
    ∧ (clamp_partial_area whiteDisplay.width whiteDisplay.height
        16 20 32 40).1 ≤ (whiteDisplay.width : Int) - 8
    ∧ 8 ≤ (clamp_partial_area whiteDisplay.width whiteDisplay.height
        16 20 32 40).2.2.1
    ∧ (clamp_partial_area whiteDisplay.width whiteDisplay.height
        16 20 32 40).2.2.1
        ≤ (whiteDisplay.width : Int)
          - (clamp_partial_area whiteDisplay.width whiteDisplay.height
              16 20 32 40).1
    ∧ 0 ≤ (clamp_partial_area whiteDisplay.width whiteDisplay.height
        16 20 32 40).2.1
    ∧ (clamp_partial_area whiteDisplay.width whiteDisplay.height
        16 20 32 40).2.1 ≤ (whiteDisplay.height : Int) - 1
    ∧ 1 ≤ (clamp_partial_area whiteDisplay.width whiteDisplay.height
        16 20 32 40).2.2.2
    ∧ (clamp_partial_area whiteDisplay.width whiteDisplay.height
        16 20 32 40).2.2.2
        ≤ (whiteDisplay.height : Int)
          - (clamp_partial_area whiteDisplay.width whiteDisplay.height
              16 20 32 40).2.1 :=
  set_partial_area_geometry whiteDisplay 16 20 32 40 (by decide) (by decide)
    (by decide) (by decide) (by decide)

/-- C6: `draw_image` clips the copied region to
`min(src_dim, canvas_dim - dest_offset)` and writes only inside it: the
framebuffer keeps its length, every byte in a row outside
`[dest_y, dest_y + clipped_h)` or whose 8-pixel span is disjoint from
`[dest_x, dest_x + clipped_w)` is unchanged, and nothing ever exists
past the canvas buffer (indices beyond it read as the default on both
sides). -/
theorem draw_image_safety (d : Display) (f : Frame) (x y : Nat) :
    (draw_image d f x y).fb.length = d.fb.length
    ∧ (∀ r c, c < d.bpl →
        (r < y ∨ y + min f.h (d.height - y) ≤ r
          ∨ 8 * c + 8 ≤ x ∨ x + min f.w (d.width - x) ≤ 8 * c) →
        (draw_image d f x y).fb.getD (r * d.bpl + c) 0
          = d.fb.getD (r * d.bpl + c) 0)
    ∧ (∀ j, d.fb.length ≤ j →
        (draw_image d f x y).fb.getD j 0 = 0 ∧ d.fb.getD j 0 = 0) := by
  refine ⟨draw_image_fb_length d f x y, ?_, ?_⟩
  · intro r c hc hcond
    unfold draw_image
    apply blitRows_getD_ne
    intro py hpy px hpx
    have hbpl : d.bpl = (d.width + 7) / 8 := rfl
    have hxw : x + px < d.width := by omega
    have hdiv : (x + px) / 8 < d.bpl := by omega
    apply rowcol_index_ne d.bpl r c (y + py) ((x + px) / 8) hc hdiv
    rcases hcond with h | h | h | h
    · exact Or.inl (by omega)
    · exact Or.inl (by omega)
    · exact Or.inr (by omega)
    · exact Or.inr (by omega)
  · intro j hj
    refine ⟨List.getD_eq_default _ _ ?_, List.getD_eq_default _ _ hj⟩
    rw [draw_image_fb_length]
    exact hj

/-- Witness for C6 at a concrete input (an oversized source at an
offset near the canvas edge). -/
theorem draw_image_safety_witness :
    (draw_image whiteDisplay (whiteFrame 200 300) 120 240).fb.length
      = whiteDisplay.fb.length
    ∧ (draw_image whiteDisplay (whiteFrame 200 300) 120 240).fb.getD
        (0 * whiteDisplay.bpl + 0) 0
      = whiteDisplay.fb.getD (0 * whiteDisplay.bpl + 0) 0 :=
  ⟨(draw_image_safety whiteDisplay (whiteFrame 200 300) 120 240).1,
   (draw_image_safety whiteDisplay (whiteFrame 200 300) 120 240).2.1
     0 0 (by decide) (Or.inl (by decide))⟩

/-- C7: any partial-mode animation run with more than one frame —
whether it ends by loop-count exhaustion (`cancelAt = none`) or by
cancellation at any frame boundary — finishes with the mandatory
cleanup: the commanded mode is `Full` (0), the framebuffer is all
`0xFF`, and the last two device commands are a `Full` mode-set followed
by an update. -/
theorem display_gif_cleanup (d : Display) (frames : List Frame)
    (loops : Nat) (cancelAt : Option Nat) (hn : 1 < frames.length) :
    (display_gif d frames loops true cancelAt).mode = 0
    ∧ (display_gif d frames loops true cancelAt).fb
        = List.replicate d.fb.length 255
    ∧ ∃ rest, (display_gif d frames loops true cancelAt).cmds
        = Cmd.update :: Cmd.setMode 0 :: rest := by
  have hL : (gifLoopState d frames loops true cancelAt).fb.length
      = d.fb.length := gifLoopState_fb_length d frames loops true cancelAt
  unfold display_gif
  rw [if_pos (show (true = true) ∧ 1 < frames.length from ⟨rfl, hn⟩)]
  refine ⟨rfl, ?_, ⟨(gifLoopState d frames loops true cancelAt).cmds, rfl⟩⟩
  show List.replicate
      (gifLoopState d frames loops true cancelAt).fb.length
      (if (255 : Nat) ≠ 0 then 255 else 0)
    = List.replicate d.fb.length 255
  rw [hL]
  simp

/-- Witness for C7 at a concrete input: two frames, one loop, cancelled
after the first frame iteration. -/
theorem display_gif_cleanup_witness :
    (display_gif whiteDisplay [whiteFrame 8 8, whiteFrame 8 8] 1 true
        (some 1)).mode = 0
    ∧ (display_gif whiteDisplay [whiteFrame 8 8, whiteFrame 8 8] 1 true
        (some 1)).fb = List.replicate whiteDisplay.fb.length 255
    ∧ ∃ rest, (display_gif whiteDisplay [whiteFrame 8 8, whiteFrame 8 8] 1
        true (some 1)).cmds = Cmd.update :: Cmd.setMode 0 :: rest :=
  display_gif_cleanup whiteDisplay [whiteFrame 8 8, whiteFrame 8 8] 1
    (some 1) (by decide)

/-- C8 (code-bug evidence): when the hardware reset ioctl fails
(`resetFails = true`), step 1 of the recovery sequence nevertheless
returns success with zero sysfs `force_reset` attempts and no error
propagated, because `EInkDisplay.reset_display` catches the `IOError`
itself; the `except IOError` fallback in `eink_recovery.py` is
unreachable, contradicting the claimed one-fallback-then-propagate
behaviour. -/
theorem recovery_reset_no_fallback (d : Display)
    (setModeFails sysfsFails : Bool) :
    recovery_step1 d true setModeFails sysfsFails
      = Except.ok (ec_reset_display d true setModeFails, 0)
    ∧ ec_reset_display d true setModeFails = d := by
  constructor <;> rfl

/-- C9: a successful `reset_display` (both ioctls succeed) issues the
hardware reset and then immediately commands update mode `Full`: the
resulting commanded mode is 0 and the trace ends with `reset` directly
followed by `setMode 0`. -/
theorem reset_display_full_mode (d : Display) :
    (ec_reset_display d false false).mode = 0
    ∧ (ec_reset_display d false false).cmds
        = Cmd.setMode 0 :: Cmd.reset :: d.cmds := by
  constructor <;> rfl

end EInk
